import Mathlib

/-!
Verification development for the Legator scheduling and execution core.

Each Go function relevant to the frozen claims is shallowly embedded as an
executable Lean definition: machine times and durations are integer
nanoseconds, Go maps become association lists or functions into Option,
and effectful loops become explicit folds over event lists.  The theorems
at the end of the file settle the claims against these embeddings.
-/

namespace Legator

/-! ## Action tiers and classification (internal/tools) -/

/-- Risk tier of a proposed tool action, as declared in the tools package. -/
inductive ActionTier where
  | read
  | serviceMutation
  | destructiveMutation
  | dataMutation
deriving DecidableEq, Repr

/-- Result of classifying a proposed action, mirroring the Go
ActionClassification struct (tier, blocked flag, block reason, description). -/
structure ActionClassification where
  tier : ActionTier
  blocked : Bool := false
  blockReason : String := ""
  description : String := ""
deriving DecidableEq, Repr

/-- Static destructive-mutation table of classifyAWSAction. -/
def awsDestructive : List String :=
  [ "ec2.terminate-instances", "ec2.delete-security-group", "ec2.delete-vpc",
    "ec2.delete-subnet", "rds.delete-db-instance", "rds.delete-db-cluster",
    "iam.delete-user", "iam.delete-role", "iam.delete-policy",
    "iam.put-user-policy", "iam.attach-role-policy", "iam.create-access-key",
    "lambda.delete-function", "ecs.delete-cluster", "ecs.delete-service",
    "cloudformation.delete-stack" ]

/-- Static data-mutation table of classifyAWSAction (always blocked). -/
def awsDataMutation : List String :=
  [ "s3.rb", "s3.rm", "s3api.delete-bucket", "s3api.delete-object",
    "s3api.delete-objects", "dynamodb.delete-table", "dynamodb.delete-item",
    "rds.delete-db-snapshot", "rds.delete-db-cluster-snapshot" ]

/-- Static service-mutation table of classifyAWSAction. -/
def awsServiceMutation : List String :=
  [ "ec2.start-instances", "ec2.stop-instances", "ec2.reboot-instances",
    "ec2.create-security-group", "ec2.authorize-security-group-ingress",
    "ec2.revoke-security-group-ingress", "ecs.update-service",
    "lambda.update-function-code", "lambda.update-function-configuration",
    "rds.reboot-db-instance", "rds.modify-db-instance",
    "autoscaling.set-desired-capacity", "autoscaling.update-auto-scaling-group" ]

/-- Embedding of classifyAWSAction: looks the key service.command up in the
three static tables, data mutation first, and otherwise returns the read
tier (the Go source comment reads Default: read). -/
def classifyAWSAction (service command : String) : ActionClassification :=
  let key := service ++ "." ++ command
  if awsDataMutation.contains key then
    { tier := .dataMutation, blocked := true,
      blockReason := "data mutation blocked: " ++ key,
      description := "AWS " ++ key ++ " (data mutation)" }
  else if awsDestructive.contains key then
    { tier := .destructiveMutation, description := "AWS " ++ key ++ " (destructive)" }
  else if awsServiceMutation.contains key then
    { tier := .serviceMutation, description := "AWS " ++ key ++ " (service mutation)" }
  else
    { tier := .read, description := "AWS " ++ key ++ " (read)" }

/-- Static destructive-mutation table of classifyAzureAction. -/
def azureDestructive : List String :=
  [ "vm.delete", "group.delete", "aks.delete", "network.vnet.delete",
    "network.nsg.delete", "sql.server.delete", "sql.db.delete",
    "keyvault.delete", "ad.sp.delete", "role.assignment.delete",
    "role.definition.delete", "functionapp.delete", "webapp.delete",
    "cosmosdb.delete" ]

/-- Static data-mutation table of classifyAzureAction (always blocked). -/
def azureDataMutation : List String :=
  [ "storage.account.delete", "storage.blob.delete", "storage.container.delete",
    "sql.db.delete", "cosmosdb.collection.delete", "cosmosdb.database.delete",
    "keyvault.secret.delete", "keyvault.key.delete", "backup.vault.delete" ]

/-- Static service-mutation table of classifyAzureAction. -/
def azureServiceMutation : List String :=
  [ "vm.start", "vm.stop", "vm.deallocate", "vm.restart", "vm.resize",
    "aks.scale", "aks.upgrade", "webapp.restart", "functionapp.restart",
    "network.nsg.rule.create", "network.nsg.rule.delete",
    "network.nsg.rule.update", "sql.db.update", "role.assignment.create",
    "ad.sp.create" ]

/-- Embedding of classifyAzureAction: looks the key group.command up in the
three static tables, data mutation first, and otherwise returns the read
tier (the Go source comment reads Default: read). -/
def classifyAzureAction (group command : String) : ActionClassification :=
  let key := group ++ "." ++ command
  if azureDataMutation.contains key then
    { tier := .dataMutation, blocked := true,
      blockReason := "data mutation blocked: " ++ key,
      description := "Azure " ++ key ++ " (data mutation)" }
  else if azureDestructive.contains key then
    { tier := .destructiveMutation, description := "Azure " ++ key ++ " (destructive)" }
  else if azureServiceMutation.contains key then
    { tier := .serviceMutation, description := "Azure " ++ key ++ " (service mutation)" }
  else
    { tier := .read, description := "Azure " ++ key ++ " (read)" }

/-- Leading keywords classified as reads by the SQL classifier. -/
def sqlReadKeywords : List String :=
  ["SELECT", "SHOW", "DESCRIBE", "DESC", "EXPLAIN"]

/-- Leading keywords classified as data mutations by the SQL classifier. -/
def sqlDataMutationKeywords : List String :=
  ["INSERT", "UPDATE", "DELETE", "MERGE", "UPSERT", "COPY"]

/-- Leading keywords classified as destructive mutations by the SQL
classifier; CREATE is handled separately because CREATE INDEX is a service
mutation while other CREATE statements are destructive. -/
def sqlDestructiveKeywords : List String :=
  ["DROP", "TRUNCATE", "ALTER"]

/-- Leading keywords classified as service mutations by the SQL classifier. -/
def sqlServiceMutationKeywords : List String :=
  ["ANALYZE", "VACUUM", "GRANT", "SET"]

/-- Characters of a string with surrounding whitespace removed, modelling
strings.TrimSpace. -/
def trimChars (cs : List Char) : List Char :=
  ((cs.dropWhile (fun c => c.isWhitespace)).reverse.dropWhile
    (fun c => c.isWhitespace)).reverse

/-- First space-separated token of a query, upper-cased, after trimming. -/
def leadingWord (query : String) : String :=
  String.mk (((trimChars query.data).takeWhile (fun c => c ≠ ' ')).map Char.toUpper)

/-- Second space-separated token of a query, upper-cased, after trimming. -/
def secondWord (query : String) : String :=
  String.mk (((((trimChars query.data).dropWhile (fun c => c ≠ ' ')).drop 1).takeWhile
    (fun c => c ≠ ' ')).map Char.toUpper)

/-- Modelled from the spec: the body of classifySQLQuery is not under src/
(only its tests are).  The spec states that the SQL tool classifies by
leading keyword against a static table and is fail-closed, unknown verbs
defaulting to destructive-mutation; the keyword tables are those asserted
by the classifySQLQuery unit tests, with CREATE INDEX a service mutation
and every other CREATE destructive. -/
def classifySQLQuery (query : String) : ActionTier :=
  let w := leadingWord query
  if sqlReadKeywords.contains w then .read
  else if sqlDataMutationKeywords.contains w then .dataMutation
  else if w = "CREATE" then
    (if secondWord query = "INDEX" then .serviceMutation else .destructiveMutation)
  else if sqlDestructiveKeywords.contains w then .destructiveMutation
  else if sqlServiceMutationKeywords.contains w then .serviceMutation
  else .destructiveMutation

/-! ## Time units

Times and durations are integer nanoseconds, matching the representation
underlying the Go time package. -/

/-- Nanoseconds in one millisecond. -/
def nsPerMillisecond : Int := 1000000

/-- Nanoseconds in one second. -/
def nsPerSecond : Int := 1000000000

/-- Nanoseconds in one minute. -/
def nsPerMinute : Int := 60 * nsPerSecond

/-- Nanoseconds in one hour. -/
def nsPerHour : Int := 60 * nsPerMinute

/-! ## Concurrency gate (internal/scheduler/concurrency.go) -/

/-- Metadata about an in-flight run, mirroring the Go RunInfo struct. -/
structure RunInfo where
  runName : String
  startedAt : Int
deriving DecidableEq, Repr

/-- State of the RunTracker: the in-flight map from agent key to run info. -/
structure RunTracker where
  inflight : String → Option RunInfo

/-- Tracker with the empty in-flight map, as built by NewRunTracker. -/
def RunTracker.new : RunTracker := ⟨fun _ => none⟩

/-- Embedding of RunTracker.TryStart: admission succeeds iff the agent key
is absent from the in-flight map, in which case the key is inserted with
the run name and the admission timestamp. -/
def RunTracker.tryStart (t : RunTracker) (agentKey runName : String) (now : Int) :
    Bool × RunTracker :=
  match t.inflight agentKey with
  | some _ => (false, t)
  | none =>
      (true, ⟨fun k => if k = agentKey then some ⟨runName, now⟩ else t.inflight k⟩)

/-- Embedding of RunTracker.Complete: removes the agent key from the
in-flight map. -/
def RunTracker.complete (t : RunTracker) (agentKey : String) : RunTracker :=
  ⟨fun k => if k = agentKey then none else t.inflight k⟩

/-- Embedding of RunTracker.IsRunning. -/
def RunTracker.isRunning (t : RunTracker) (agentKey : String) : Bool :=
  (t.inflight agentKey).isSome

/-! ## Schedule evaluation (internal/scheduler/schedule.go) -/

/-- Embedding of nextIntervalRun.  The first argument is the result of
parsing the interval string (none when ParseDuration failed, in which case
the Go function returns an error, embedded as none).  When the agent has a
recorded last run time the next run is that time plus the interval;
otherwise the agent has never run and is due now. -/
def nextIntervalRun (parsedInterval : Option Int) (lastRunTime : Option Int)
    (now : Int) : Option Int :=
  match parsedInterval with
  | none => none
  | some dur =>
      match lastRunTime with
      | none => some now
      | some t => some (t + dur)

/-- Embedding of ApplyJitter.  Durations are integer nanoseconds; the Go
code converts the interval to float64, scales by jitterPercent/100 and
truncates back to a Duration, which for the nanosecond magnitudes involved
(below 2^53) coincides with integer multiplication followed by truncating
division, so the scaling is embedded as interval * jp / 100.  The random
draw of rand.Int63n maxJitter, a uniform value in the interval from 0 to
maxJitter - 1, is embedded as draw % maxJitter for an arbitrary draw. -/
def applyJitter (scheduled interval : Int) (jitterPercent : Int) (draw : Nat) : Int :=
  let jp := if jitterPercent ≤ 0 then 10 else jitterPercent
  let maxJitter0 := interval * jp / 100
  let maxJitter := if maxJitter0 > 30 * nsPerSecond then 30 * nsPerSecond else maxJitter0
  if maxJitter < 100 * nsPerMillisecond then
    scheduled
  else
    let offset := (draw : Int) % maxJitter - maxJitter / 2
    scheduled + offset

/-! ## Debouncer (scheduler webhook file) -/

/-- State of a Debouncer: the window and the map from key to the time of
the last fire. -/
structure Debouncer where
  window : Int
  last : String → Option Int

/-- Debouncer with the given window and no recorded fires; NewDebouncer
substitutes a 30 second window when the given one is not positive. -/
def Debouncer.new (window : Int) : Debouncer :=
  ⟨if window ≤ 0 then 30 * nsPerSecond else window, fun _ => none⟩

/-- Embedding of Debouncer.ShouldFire: returns false and leaves the state
unchanged when a fire is recorded for the key less than one window ago;
otherwise records the current time for the key and returns true. -/
def Debouncer.shouldFire (d : Debouncer) (key : String) (now : Int) :
    Bool × Debouncer :=
  match d.last key with
  | some t =>
      if now - t < d.window then (false, d)
      else (true, ⟨d.window, fun k => if k = key then some now else d.last k⟩)
  | none => (true, ⟨d.window, fun k => if k = key then some now else d.last k⟩)

/-- Runs ShouldFire for one key at each time of a list in order, returning
the list of results and the final state. -/
def Debouncer.fireSeq (d : Debouncer) (key : String) : List Int → List Bool × Debouncer
  | [] => ([], d)
  | t :: ts =>
      let (b, d1) := d.shouldFire key t
      let (bs, d2) := d1.fireSeq key ts
      (b :: bs, d2)

/-! ## Retention sweeper (retention package) -/

/-- Phase of an AgentRun record. -/
inductive RunPhase where
  | pending
  | running
  | succeeded
  | failed
  | escalated
  | blocked
deriving DecidableEq, Repr

/-- Embedding of isTerminal: true exactly for the four completed phases. -/
def isTerminal : RunPhase → Bool
  | .succeeded => true
  | .failed => true
  | .escalated => true
  | .blocked => true
  | _ => false

/-- The fields of an AgentRun record that the retention scan reads. -/
structure AgentRun where
  name : String
  namespaceName : String
  agentRef : String
  phase : RunPhase
  creationTime : Int
  completionTime : Option Int
deriving DecidableEq, Repr

/-- Retention configuration, mirroring the Go Config struct. -/
structure RetentionConfig where
  ttl : Int
  scanInterval : Int
  maxDeleteBatch : Nat
  preserveMinPerAgent : Nat
deriving DecidableEq, Repr

/-- Embedding of DefaultConfig: 7 day TTL, hourly scan, batch 100,
preserve 5 per agent. -/
def defaultRetentionConfig : RetentionConfig :=
  ⟨7 * 24 * nsPerHour, nsPerHour, 100, 5⟩

/-- Grouping key of a run, namespace/agentRef as in doScan. -/
def AgentRun.agentKey (r : AgentRun) : String :=
  r.namespaceName ++ "/" ++ r.agentRef

/-- Runs of the list belonging to one agent key, in input order, as byAgent
accumulates them. -/
def agentGroup (runs : List AgentRun) (k : String) : List AgentRun :=
  runs.filter (fun r => r.agentKey = k)

/-- Sort of one agent group, newest creation time first, as the sort.Slice
call with the After comparator produces (the embedding fixes the stable
order on creation-time ties, which the Go sort leaves unspecified). -/
def sortNewestFirst (g : List AgentRun) : List AgentRun :=
  g.mergeSort (fun a b => b.creationTime ≤ a.creationTime)

/-- Completion time of a run, falling back to creation time when absent,
as the TTL check in doScan does. -/
def effectiveCompletion (r : AgentRun) : Int :=
  r.completionTime.getD r.creationTime

/-- Embedding of the eligibility loop of doScan over one sorted group: the
index counts every run of the group; non-terminal runs are skipped, the
first preserveMinPerAgent positions are preserved, and of the rest those
whose effective completion time is before the cutoff are marked. -/
def markEligible (cfg : RetentionConfig) (cutoff : Int) :
    Nat → List AgentRun → List AgentRun
  | _, [] => []
  | i, r :: rs =>
      if ¬ isTerminal r.phase then markEligible cfg cutoff (i + 1) rs
      else if i < cfg.preserveMinPerAgent then markEligible cfg cutoff (i + 1) rs
      else if effectiveCompletion r < cutoff then
        r :: markEligible cfg cutoff (i + 1) rs
      else markEligible cfg cutoff (i + 1) rs

/-- Counters of one scan, mirroring the Go ScanResult struct. -/
structure ScanResult where
  scanned : Nat
  eligible : Nat
  deleted : Nat
  errors : Nat
deriving DecidableEq, Repr

/-- Everything one doScan call produces: the counters, the batch of runs
whose deletion was attempted, and the runs actually deleted. -/
structure ScanOutcome where
  result : ScanResult
  attempted : List AgentRun
  deletedRuns : List AgentRun
deriving DecidableEq, Repr

/-- Embedding of Controller.doScan.  The listed runs are given; deleteFails
says which individual Delete calls the store fails.  Runs are grouped by
agent key, each group is sorted newest first, the eligibility loop marks
terminal runs past the preserve window whose effective completion time is
before now - TTL, the marked list is truncated to maxDeleteBatch, and every
deletion in the batch is attempted, failures being counted but not stopping
the remaining deletions.  Go iterates the byAgent map in unspecified order;
the embedding fixes first-key order, which affects only which eligible runs
fall inside the batch truncation. -/
def doScan (cfg : RetentionConfig) (runs : List AgentRun) (now : Int)
    (deleteFails : AgentRun → Bool) : ScanOutcome :=
  let cutoff := now - cfg.ttl
  let keys := (runs.map AgentRun.agentKey).dedup
  let eligibleRuns :=
    keys.flatMap (fun k => markEligible cfg cutoff 0 (sortNewestFirst (agentGroup runs k)))
  let batch := eligibleRuns.take cfg.maxDeleteBatch
  let deleted := batch.filter (fun r => ! deleteFails r)
  let failed := batch.filter (fun r => deleteFails r)
  { result := ⟨runs.length, eligibleRuns.length, deleted.length, failed.length⟩
    attempted := batch
    deletedRuns := deleted }

/-- Retention configuration used by the concrete retention witness: TTL of
100 ns, batch of 10, one run preserved per agent. -/
def retentionWitnessConfig : RetentionConfig := ⟨100, 1, 10, 1⟩

/-- Concrete run list used by the retention witness: a fresh terminal run,
a still-running run, and an old terminal run of the same agent. -/
def retentionWitnessRuns : List AgentRun :=
  [ ⟨"run-new", "default", "agent-a", .succeeded, 1000, some 1005⟩,
    ⟨"run-live", "default", "agent-a", .running, 500, none⟩,
    ⟨"run-old", "default", "agent-a", .succeeded, 0, some 5⟩ ]

/-! ## Graceful drain (lifecycle package) -/

/-- Outcome of a WaitForDrain call: the returned count, the keys whose run
contexts were cancelled, and the registered cancel map afterwards. -/
structure DrainResult where
  returned : Nat
  cancelledKeys : List String
  finalCancels : List String
deriving DecidableEq, Repr

/-- Embedding of the WaitForDrain select loop.  Each element of ticks is
the in-flight count the 500 ms ticker observes before the deadline fires;
deadlineCount is the count observed when the deadline fires.  A zero tick
observation returns 0 with nothing cancelled; at the deadline a positive
remaining count cancels every registered run context (cancelAll clears the
map) and returns that count, and a zero remaining count returns 0. -/
def drainLoop (cancels : List String) (deadlineCount : Nat) :
    List Nat → DrainResult
  | [] =>
      if deadlineCount > 0 then ⟨deadlineCount, cancels, []⟩
      else ⟨0, [], cancels⟩
  | c :: cs =>
      if c = 0 then ⟨0, [], cancels⟩
      else drainLoop cancels deadlineCount cs

/-- Embedding of ShutdownManager.WaitForDrain: a zero initial in-flight
count returns 0 immediately without touching the cancel map; otherwise the
polling loop runs. -/
def waitForDrain (inflight0 : Nat) (ticks : List Nat) (deadlineCount : Nat)
    (cancels : List String) : DrainResult :=
  if inflight0 = 0 then ⟨0, [], cancels⟩
  else drainLoop cancels deadlineCount ticks

/-! ## Credential manager cleanup (vault package) -/

/-- The CredentialManager state the cleanup touches: tracked lease ids and
tracked in-memory SSH private key buffers (byte values). -/
structure CredentialManager where
  leases : List String
  sshKeys : List (List Nat)
deriving DecidableEq, Repr

/-- Outcome of Cleanup: the collected per-lease errors, the contents of the
tracked key buffers after the zeroing loop, and the manager state after
both tracking lists are cleared. -/
structure CleanupOutcome where
  errs : List String
  zeroedKeys : List (List Nat)
  final : CredentialManager
deriving DecidableEq, Repr

/-- Embedding of CredentialManager.Cleanup.  revoke models the Vault
RevokeLease call, returning some error message on failure.  Every tracked
lease is revoked in order, each failure appended to the error list without
stopping the loop; then every byte of every tracked key buffer is
overwritten with zero, and both tracking lists are set to nil. -/
def cleanup (m : CredentialManager) (revoke : String → Option String) :
    CleanupOutcome :=
  let errs := m.leases.filterMap
    (fun leaseID => (revoke leaseID).map
      (fun e => "revoke lease " ++ leaseID ++ ": " ++ e))
  let zeroed := m.sshKeys.map (fun key => key.map (fun _ => 0))
  ⟨errs, zeroed, ⟨[], []⟩⟩

/-- Embedding of ActiveLeaseCount. -/
def activeLeaseCount (m : CredentialManager) : Nat :=
  m.leases.length

/-! ## Approval manager (internal/approval) -/

/-- Phase of an ApprovalRequest record. -/
inductive ApprovalPhase where
  | pending
  | approved
  | denied
  | expired
deriving DecidableEq, Repr

/-- One event observed by the approval wait loop: a poll of the record, the
manager's own timeout elapsing, or cancellation of the caller's context. -/
inductive WaitEvent where
  | observe (phase : ApprovalPhase) (decider : String)
  | timeout
  | cancelled
deriving DecidableEq, Repr

/-- Result RequestApproval hands back to the runner; err models a non-nil
returned error (the context error on cancellation). -/
structure ApprovalResult where
  phase : ApprovalPhase
  approved : Bool
  decidedBy : String
  err : Bool
deriving DecidableEq, Repr

/-- One status write RequestApproval performs on the ApprovalRequest record
after creating it. -/
structure StoreWrite where
  phase : ApprovalPhase
  decider : String
deriving DecidableEq, Repr

/-- True for a poll that found the record still Pending, the only event the
wait loop keeps waiting through. -/
def WaitEvent.keepsWaiting : WaitEvent → Bool
  | .observe .pending _ => true
  | _ => false

/-- Modelled from the spec: the body of Manager.RequestApproval is not
under src/ (only its tests are).  Following the spec protocol, after
creating the Pending record the manager polls until the record is Approved
(return Approved with the decider identity), the record is Denied (return
Denied), its own timeout elapses (write phase Expired with decider system
to the record, return Expired), or the caller context is cancelled (return
Expired with the context error and perform no further writes).  The
function consumes the observed events in order and returns the result
together with the status writes performed during the wait; none means the
event list was exhausted while the record stayed Pending. -/
def requestApprovalLoop : List WaitEvent → Option (ApprovalResult × List StoreWrite)
  | [] => none
  | e :: es =>
      match e with
      | .observe .approved who => some (⟨.approved, true, who, false⟩, [])
      | .observe .denied who => some (⟨.denied, false, who, false⟩, [])
      | .observe _ _ => requestApprovalLoop es
      | .timeout => some (⟨.expired, false, "system", false⟩, [⟨.expired, "system"⟩])
      | .cancelled => some (⟨.expired, false, "", true⟩, [])

/-! ## Webhook handler (scheduler webhook file) -/

/-- Namespaced name of an agent. -/
structure AgentName where
  namespaceName : String
  name : String
deriving DecidableEq, Repr

/-- Trigger emitted on the webhook trigger channel. -/
structure WebhookTrigger where
  agent : AgentName
  source : String
  payload : String
  time : Int
deriving DecidableEq, Repr

/-- HTTP response the handler writes. -/
structure HttpResponse where
  status : Nat
  body : String
deriving DecidableEq, Repr

/-- Embedding of extractSource: the path must start with /webhook/ and the
remainder is the source (empty when absent); prefix test and slice are
spelled at the character level. -/
def extractSource (path : String) : String :=
  if path.data.take 9 = "/webhook/".data then String.mk (path.data.drop 9)
  else ""

/-- Everything one ServeHTTP call produces: the response, the triggers
emitted on the channel, and the debouncer state afterwards. -/
structure WebhookOutcome where
  response : HttpResponse
  triggers : List WebhookTrigger
  debouncer : Debouncer

/-- Go JSON encoding of the response map written in the branch with
registered agents: the encoder orders map keys alphabetically and appends a
newline. -/
def encodeAcceptedBody (agents triggered : Nat) : String :=
  "\x7b\"agents\":" ++ toString agents ++ ",\"status\":\"accepted\",\"triggered\":" ++
    toString triggered ++ "\x7d\n"

/-- Per-agent step of the trigger loop: the debounce key is
source/namespace/name; when the debouncer fires and the channel has a free
slot the trigger is sent, otherwise it is dropped. -/
def triggerStep (source payload : String) (now : Int)
    (acc : Nat × List WebhookTrigger × Debouncer × Nat) (agent : AgentName) :
    Nat × List WebhookTrigger × Debouncer × Nat :=
  let (triggered, trigs, deb, slots) := acc
  let debounceKey := source ++ "/" ++ agent.namespaceName ++ "/" ++ agent.name
  let (fire, deb1) := deb.shouldFire debounceKey now
  if fire then
    if slots > 0 then
      (triggered + 1, trigs ++ [⟨agent, source, payload, now⟩], deb1, slots - 1)
    else (triggered, trigs, deb1, slots)
  else (triggered, trigs, deb1, slots)

/-- Embedding of WebhookHandler.ServeHTTP.  The request is given as method,
path and the result of the io.ReadAll body read, none meaning the read
failed; agentMap is the registration map, none meaning the source key is
absent; freeSlots is the spare capacity of the buffered trigger channel.
Non-POST methods get 405; a path without a source gets 400; a failed body
read gets 400; a source with no registered agents gets 202 with the literal
accepted/agents:0 body and no trigger; otherwise each registered agent is
triggered through the debouncer and channel, and the 202 response reports
the agent and trigger counts. -/
def serveHTTP (method path : String) (bodyRead : Option String)
    (agentMap : String → Option (List AgentName)) (deb : Debouncer)
    (freeSlots : Nat) (now : Int) : WebhookOutcome :=
  if method ≠ "POST" then ⟨⟨405, "method not allowed"⟩, [], deb⟩
  else
    let source := extractSource path
    if source = "" then ⟨⟨400, "missing source in path"⟩, [], deb⟩
    else
      match bodyRead with
      | none => ⟨⟨400, "failed to read body"⟩, [], deb⟩
      | some body =>
          match agentMap source with
          | none => ⟨⟨202, "\x7b\"status\":\"accepted\",\"agents\":0\x7d"⟩, [], deb⟩
          | some agents =>
              if agents.length = 0 then
                ⟨⟨202, "\x7b\"status\":\"accepted\",\"agents\":0\x7d"⟩, [], deb⟩
              else
                let res := agents.foldl (triggerStep source body now) (0, [], deb, freeSlots)
                ⟨⟨202, encodeAcceptedBody agents.length res.1⟩, res.2.1, res.2.2.1⟩

/-! ## Helper lemmas -/

/-- Characterization of applyJitter at the default jitter percentage: the
effective jitter is the interval over ten capped at 30 seconds, no jitter
below the 100 ms floor, and otherwise a centered offset. -/
theorem applyJitter_eq (s i jp : Int) (draw : Nat) (hjp : jp = 10 ∨ jp ≤ 0) :
    applyJitter s i jp draw =
      (if min (30 * nsPerSecond) (i / 10) < 100 * nsPerMillisecond then s
       else s + ((draw : Int) % min (30 * nsPerSecond) (i / 10)
         - min (30 * nsPerSecond) (i / 10) / 2)) := by
  have hjp10 : (if jp ≤ 0 then (10 : Int) else jp) = 10 := by
    rcases hjp with h | h
    · subst h; norm_num
    · simp [h]
  have hmin : (if i * 10 / 100 > 30 * nsPerSecond then 30 * nsPerSecond
      else i * 10 / 100) = min (30 * nsPerSecond) (i / 10) := by
    simp only [nsPerSecond, min_def, gt_iff_lt]
    split_ifs <;> omega
  simp only [applyJitter, hjp10, hmin]

/-- Suppression lemma for the debouncer: while the recorded fire for a key
is fresh, a whole sequence of events within the window is dropped and the
state is untouched. -/
theorem fireSeq_suppressed (d : Debouncer) (key : String) (t0 : Int)
    (hlast : d.last key = some t0) (rest : List Int)
    (h : ∀ t ∈ rest, t - t0 < d.window) :
    d.fireSeq key rest = (List.replicate rest.length false, d) := by
  induction rest with
  | nil => rfl
  | cons t ts ih =>
      have ht : t - t0 < d.window := h t (by simp)
      simp only [Debouncer.fireSeq, Debouncer.shouldFire, hlast, if_pos ht,
        ih (fun x hx => h x (by simp [hx])), List.length_cons, List.replicate_succ]

/-- Every run the eligibility loop marks is terminal, past the cutoff, and
a member of the scanned group. -/
theorem markEligible_mem (cfg : RetentionConfig) (cutoff : Int)
    (g : List AgentRun) : ∀ (i : Nat) (r : AgentRun),
    r ∈ markEligible cfg cutoff i g →
    isTerminal r.phase = true ∧ effectiveCompletion r < cutoff ∧ r ∈ g := by
  induction g with
  | nil => intro i r hr; simp [markEligible] at hr
  | cons x g ih =>
      intro i r hr
      unfold markEligible at hr
      have hrec : r ∈ markEligible cfg cutoff (i + 1) g →
          isTerminal r.phase = true ∧ effectiveCompletion r < cutoff ∧
            r ∈ x :: g := by
        intro hm
        rcases ih _ _ hm with ⟨a, b, c⟩
        exact ⟨a, b, List.mem_cons_of_mem _ c⟩
      by_cases h1 : isTerminal x.phase = true
      · rw [if_neg (not_not_intro h1)] at hr
        by_cases h2 : i < cfg.preserveMinPerAgent
        · rw [if_pos h2] at hr
          exact hrec hr
        · rw [if_neg h2] at hr
          by_cases h3 : effectiveCompletion x < cutoff
          · rw [if_pos h3] at hr
            rcases List.mem_cons.mp hr with h | h
            · subst h
              exact ⟨h1, h3, List.mem_cons_self _ _⟩
            · exact hrec h
          · rw [if_neg h3] at hr
            exact hrec hr
      · rw [if_pos h1] at hr
        exact hrec hr

/-- Every run the eligibility loop starting at index i marks lies past the
first preserveMinPerAgent - i positions of the group. -/
theorem markEligible_drop (cfg : RetentionConfig) (cutoff : Int)
    (g : List AgentRun) : ∀ (i : Nat) (r : AgentRun),
    r ∈ markEligible cfg cutoff i g →
    r ∈ g.drop (cfg.preserveMinPerAgent - i) := by
  induction g with
  | nil => intro i r hr; simp [markEligible] at hr
  | cons x g ih =>
      intro i r hr
      unfold markEligible at hr
      have step : ∀ s, s ∈ markEligible cfg cutoff (i + 1) g →
          s ∈ (x :: g).drop (cfg.preserveMinPerAgent - i) := by
        intro s hs
        have hc := ih (i + 1) s hs
        rcases Nat.lt_or_ge i cfg.preserveMinPerAgent with h | h
        · have hsucc : cfg.preserveMinPerAgent - i =
              (cfg.preserveMinPerAgent - (i + 1)) + 1 := by omega
          rw [hsucc, List.drop_succ_cons]
          exact hc
        · have h0 : cfg.preserveMinPerAgent - (i + 1) = 0 := by omega
          have h0' : cfg.preserveMinPerAgent - i = 0 := by omega
          rw [h0] at hc
          rw [h0']
          exact List.mem_cons_of_mem x (by simpa using hc)
      by_cases h1 : isTerminal x.phase = true
      · rw [if_neg (not_not_intro h1)] at hr
        by_cases h2 : i < cfg.preserveMinPerAgent
        · rw [if_pos h2] at hr
          exact step r hr
        · rw [if_neg h2] at hr
          by_cases h3 : effectiveCompletion x < cutoff
          · rw [if_pos h3] at hr
            rcases List.mem_cons.mp hr with h | h
            · subst h
              have h0 : cfg.preserveMinPerAgent - i = 0 := by omega
              rw [h0]
              exact List.mem_cons_self _ _
            · exact step r h
          · rw [if_neg h3] at hr
            exact step r hr
      · rw [if_pos h1] at hr
        exact step r hr

/-- Members of an agent group carry that group's key. -/
theorem agentGroup_key {runs : List AgentRun} {k : String} {r : AgentRun}
    (h : r ∈ agentGroup runs k) : r.agentKey = k := by
  have := (List.mem_filter.mp h).2
  simpa using this

/-- When no tick observes zero and the deadline still sees in-flight runs,
the drain loop cancels every registered context and returns that count. -/
theorem drainLoop_deadline (cs : List String) (dc : Nat) (ticks : List Nat)
    (hz : 0 ∉ ticks) (hdc : dc ≠ 0) :
    drainLoop cs dc ticks = ⟨dc, cs, []⟩ := by
  induction ticks with
  | nil => simp [drainLoop, Nat.pos_of_ne_zero hdc]
  | cons t ts ih =>
      have ht : t ≠ 0 := fun h => hz (h ▸ List.mem_cons_self t ts)
      simp only [drainLoop, if_neg ht]
      exact ih (fun h => hz (List.mem_cons_of_mem t h))

/-- A zero tick observation ends the drain loop with nothing cancelled. -/
theorem drainLoop_zero (cs : List String) (dc : Nat) (ticks : List Nat)
    (hz : 0 ∈ ticks) : drainLoop cs dc ticks = ⟨0, [], cs⟩ := by
  induction ticks with
  | nil => simp at hz
  | cons t ts ih =>
      by_cases ht : t = 0
      · simp [drainLoop, ht]
      · have : 0 ∈ ts := by
          rcases List.mem_cons.mp hz with h | h
          · exact absurd h.symm ht
          · exact h
        simp only [drainLoop, if_neg ht]
        exact ih this

/-- The drain loop either returns zero or has cancelled every registered
context and cleared the map. -/
theorem drainLoop_post (cs : List String) (dc : Nat) (ticks : List Nat) :
    (drainLoop cs dc ticks).returned = 0 ∨
      ((drainLoop cs dc ticks).cancelledKeys = cs ∧
        (drainLoop cs dc ticks).finalCancels = []) := by
  induction ticks with
  | nil =>
      by_cases h : dc > 0
      · right; simp [drainLoop, h]
      · left; simp [drainLoop, h]
  | cons t ts ih =>
      by_cases h : t = 0
      · left; simp [drainLoop, h]
      · simpa only [drainLoop, if_neg h] using ih

/-- Every buffer produced by zeroing a list of key buffers has the length
of its original and holds only zero bytes. -/
theorem zeroed_zip_spec (ks : List (List Nat)) :
    ∀ p ∈ (ks.map (fun key => key.map (fun _ => 0))).zip ks,
      p.1.length = p.2.length ∧ ∀ b ∈ p.1, b = 0 := by
  induction ks with
  | nil => simp
  | cons k ks ih =>
      intro p hp
      rcases List.mem_cons.mp hp with h | h
      · subst h
        constructor
        · simp
        · intro b hb
          rcases List.mem_map.mp hb with ⟨a, -, ha⟩
          exact ha.symm
      · exact ih p h

/-! ## Claim theorems -/

/-- C1 counterexample: the key cloudtrail.describe-trails appears in none
of the static AWS classification tables, yet classifyAWSAction assigns it
the read tier, not destructive-mutation, so the classifier is not
fail-closed as claimed. -/
theorem claim1_counterexample :
    awsDataMutation.contains "cloudtrail.describe-trails" = false ∧
    awsDestructive.contains "cloudtrail.describe-trails" = false ∧
    awsServiceMutation.contains "cloudtrail.describe-trails" = false ∧
    (classifyAWSAction "cloudtrail" "describe-trails").tier ≠
      ActionTier.destructiveMutation := by
  refine ⟨rfl, rfl, rfl, ?_⟩
  decide

/-- C1 (amended): the SQL classifier alone is fail-closed, returning
destructive-mutation for a query whose leading keyword matches no table;
classifyAWSAction and classifyAzureAction instead default every key not in
their tables to the read tier. -/
theorem claim1_classification_defaults
    (service command group gcommand q : String)
    (ha1 : awsDataMutation.contains (service ++ "." ++ command) = false)
    (ha2 : awsDestructive.contains (service ++ "." ++ command) = false)
    (ha3 : awsServiceMutation.contains (service ++ "." ++ command) = false)
    (hz1 : azureDataMutation.contains (group ++ "." ++ gcommand) = false)
    (hz2 : azureDestructive.contains (group ++ "." ++ gcommand) = false)
    (hz3 : azureServiceMutation.contains (group ++ "." ++ gcommand) = false)
    (hq1 : sqlReadKeywords.contains (leadingWord q) = false)
    (hq2 : sqlDataMutationKeywords.contains (leadingWord q) = false)
    (hq3 : leadingWord q ≠ "CREATE")
    (hq4 : sqlDestructiveKeywords.contains (leadingWord q) = false)
    (hq5 : sqlServiceMutationKeywords.contains (leadingWord q) = false) :
    (classifyAWSAction service command).tier = ActionTier.read ∧
    (classifyAzureAction group gcommand).tier = ActionTier.read ∧
    classifySQLQuery q = ActionTier.destructiveMutation := by
  have ha1m : service ++ "." ++ command ∉ awsDataMutation := by simpa using ha1
  have ha2m : service ++ "." ++ command ∉ awsDestructive := by simpa using ha2
  have ha3m : service ++ "." ++ command ∉ awsServiceMutation := by simpa using ha3
  have hz1m : group ++ "." ++ gcommand ∉ azureDataMutation := by simpa using hz1
  have hz2m : group ++ "." ++ gcommand ∉ azureDestructive := by simpa using hz2
  have hz3m : group ++ "." ++ gcommand ∉ azureServiceMutation := by simpa using hz3
  have hq1m : leadingWord q ∉ sqlReadKeywords := by simpa using hq1
  have hq2m : leadingWord q ∉ sqlDataMutationKeywords := by simpa using hq2
  have hq4m : leadingWord q ∉ sqlDestructiveKeywords := by simpa using hq4
  have hq5m : leadingWord q ∉ sqlServiceMutationKeywords := by simpa using hq5
  refine ⟨?_, ?_, ?_⟩
  · simp [classifyAWSAction, ha1m, ha2m, ha3m]
  · simp [classifyAzureAction, hz1m, hz2m, hz3m]
  · simp [classifySQLQuery, hq1m, hq2m, hq3, hq4m, hq5m]

/-- Witness for the amended C1 at concrete unmatched inputs. -/
theorem claim1_witness :
    (classifyAWSAction "cloudtrail" "describe-trails").tier = ActionTier.read ∧
    (classifyAzureAction "monitor" "metrics-list").tier = ActionTier.read ∧
    classifySQLQuery "CALL some_procedure()" = ActionTier.destructiveMutation :=
  claim1_classification_defaults "cloudtrail" "describe-trails" "monitor"
    "metrics-list" "CALL some_procedure()" (by decide) (by decide) (by decide)
    (by decide) (by decide) (by decide) (by decide) (by decide) (by decide)
    (by decide) (by decide)

/-- C2: the run tracker admits a run exactly when the agent key is absent
from the in-flight map, inserting the run name with the admission
timestamp, leaves the tracker unchanged on refusal, and readmits the key
after completion removes it. -/
theorem claim2_runTracker_gate (t : RunTracker) (k r : String) (now : Int) :
    ((t.tryStart k r now).1 = true ↔ t.inflight k = none) ∧
    (t.inflight k = none →
      (t.tryStart k r now).2.inflight k = some ⟨r, now⟩) ∧
    ((t.tryStart k r now).1 = false → (t.tryStart k r now).2 = t) ∧
    ((t.complete k).inflight k = none) ∧
    (((t.complete k).tryStart k r now).1 = true) := by
  cases h : t.inflight k <;>
    simp [RunTracker.tryStart, RunTracker.complete, h]

/-- Witness for C2 at the empty tracker. -/
theorem claim2_witness :
    (((RunTracker.new.tryStart "default/agent-a" "run-1" 100).1 = true ↔
        RunTracker.new.inflight "default/agent-a" = none) ∧
      (RunTracker.new.inflight "default/agent-a" = none →
        (RunTracker.new.tryStart "default/agent-a" "run-1" 100).2.inflight
          "default/agent-a" = some ⟨"run-1", 100⟩) ∧
      ((RunTracker.new.tryStart "default/agent-a" "run-1" 100).1 = false →
        (RunTracker.new.tryStart "default/agent-a" "run-1" 100).2 = RunTracker.new) ∧
      ((RunTracker.new.complete "default/agent-a").inflight "default/agent-a" = none) ∧
      (((RunTracker.new.complete "default/agent-a").tryStart "default/agent-a"
          "run-1" 100).1 = true)) :=
  claim2_runTracker_gate RunTracker.new "default/agent-a" "run-1" 100

/-- C4: an interval schedule whose agent has a recorded last run fires at
last run plus interval, with the current time not entering the result, and
an agent that has never run is due now. -/
theorem claim4_interval_next_run (d t now : Int) :
    nextIntervalRun (some d) (some t) now = some (t + d) ∧
    nextIntervalRun (some d) none now = some now :=
  ⟨rfl, rfl⟩

/-- C5: at the default jitter percentage the effective jitter j is the
interval over ten capped at 30 seconds; below the 100 ms floor the
scheduled time is returned exactly, and otherwise the returned time is the
scheduled time plus an offset between -j/2 and j/2. -/
theorem claim5_applyJitter_bounds (s i jp : Int) (draw : Nat)
    (hjp : jp = 10 ∨ jp ≤ 0) :
    (min (30 * nsPerSecond) (i / 10) < 100 * nsPerMillisecond →
      applyJitter s i jp draw = s) ∧
    (100 * nsPerMillisecond ≤ min (30 * nsPerSecond) (i / 10) →
      -(min (30 * nsPerSecond) (i / 10) / 2) ≤ applyJitter s i jp draw - s ∧
        applyJitter s i jp draw - s ≤ min (30 * nsPerSecond) (i / 10) / 2) := by
  rw [applyJitter_eq s i jp draw hjp]
  constructor
  · intro hsmall
    rw [if_pos hsmall]
  · intro hbig
    have h100 : (0 : Int) < 100 * nsPerMillisecond := by norm_num [nsPerMillisecond]
    have hjpos : 0 < min (30 * nsPerSecond) (i / 10) := lt_of_lt_of_le h100 hbig
    have hx0 : 0 ≤ (draw : Int) % min (30 * nsPerSecond) (i / 10) :=
      Int.emod_nonneg _ (ne_of_gt hjpos)
    have hx1 : (draw : Int) % min (30 * nsPerSecond) (i / 10) <
        min (30 * nsPerSecond) (i / 10) := Int.emod_lt_of_pos _ hjpos
    rw [if_neg (not_lt.mpr hbig)]
    revert hx0 hx1
    generalize (draw : Int) % min (30 * nsPerSecond) (i / 10) = x
    intro hx0 hx1
    constructor <;> omega

/-- Witness for C5: a 500 ms interval is below the jitter floor and stays
exact, and a 5 minute interval keeps the offset within plus or minus 15
seconds. -/
theorem claim5_witness :
    applyJitter 0 (500 * nsPerMillisecond) 10 999 = 0 ∧
    (-(min (30 * nsPerSecond) (5 * nsPerMinute / 10) / 2) ≤
        applyJitter 7 (5 * nsPerMinute) 10 1234567 - 7 ∧
      applyJitter 7 (5 * nsPerMinute) 10 1234567 - 7 ≤
        min (30 * nsPerSecond) (5 * nsPerMinute / 10) / 2) :=
  ⟨(claim5_applyJitter_bounds 0 (500 * nsPerMillisecond) 10 999 (Or.inl rfl)).1
      (by norm_num [nsPerSecond, nsPerMillisecond]),
    (claim5_applyJitter_bounds 7 (5 * nsPerMinute) 10 1234567 (Or.inl rfl)).2
      (by norm_num [nsPerSecond, nsPerMinute, nsPerMillisecond])⟩

/-- C6: starting from no recorded fire for a key, a burst of events within
one window fires exactly once: the first event returns true and records its
time, every later event of the burst returns false leaving the recorded
time at the first event, and an event one full window after the first fires
again. -/
theorem claim6_debounce_fires_once (d : Debouncer) (key : String) (t0 : Int)
    (rest : List Int) (hnone : d.last key = none)
    (h : ∀ t ∈ rest, t - t0 < d.window) :
    (d.fireSeq key (t0 :: rest)).1 = true :: List.replicate rest.length false ∧
    (d.fireSeq key (t0 :: rest)).2.last key = some t0 ∧
    (d.fireSeq key (t0 :: rest)).2.window = d.window ∧
    (∀ t1, d.window ≤ t1 - t0 →
      ((d.fireSeq key (t0 :: rest)).2.shouldFire key t1).1 = true) := by
  have hstep : d.shouldFire key t0 =
      (true, ⟨d.window, fun k => if k = key then some t0 else d.last k⟩) := by
    simp [Debouncer.shouldFire, hnone]
  have hlast1 : (⟨d.window, fun k => if k = key then some t0 else d.last k⟩ :
      Debouncer).last key = some t0 := by simp
  have hseq := fireSeq_suppressed
    ⟨d.window, fun k => if k = key then some t0 else d.last k⟩ key t0 hlast1 rest h
  have heq : d.fireSeq key (t0 :: rest) =
      (true :: List.replicate rest.length false,
       ⟨d.window, fun k => if k = key then some t0 else d.last k⟩) := by
    simp only [Debouncer.fireSeq, hstep, hseq]
  refine ⟨?_, ?_, ?_, ?_⟩
  · rw [heq]
  · rw [heq]; simp
  · rw [heq]
  · intro t1 ht1
    rw [heq]
    simp [Debouncer.shouldFire, not_lt.mpr ht1]

/-- Witness for C6: with a 30 second window a burst at 0, 10 and 20 seconds
fires only at 0, and an event at 30 seconds fires again. -/
theorem claim6_witness :
    ((Debouncer.new (30 * nsPerSecond)).fireSeq "alerts/default/agent-a"
        [0, 10 * nsPerSecond, 20 * nsPerSecond]).1 =
      [true, false, false] ∧
    (((Debouncer.new (30 * nsPerSecond)).fireSeq "alerts/default/agent-a"
        [0, 10 * nsPerSecond, 20 * nsPerSecond]).2.shouldFire
        "alerts/default/agent-a" (30 * nsPerSecond)).1 = true := by
  have h := claim6_debounce_fires_once (Debouncer.new (30 * nsPerSecond))
    "alerts/default/agent-a" 0 [10 * nsPerSecond, 20 * nsPerSecond] rfl
    (by intro t ht; simp [Debouncer.new, nsPerSecond] at ht ⊢; omega)
  refine ⟨?_, ?_⟩
  · rw [h.1]; rfl
  · exact h.2.2.2 (30 * nsPerSecond) (by simp [Debouncer.new])

/-- C3: a retention sweep deletes only terminal runs that are past the
first preserveMinPerAgent positions of their agent's newest-first order and
whose effective completion time is before now minus TTL; it deletes at most
maxDeleteBatch runs, an individual delete error does not stop the other
deletions of the batch, and the preserveMinPerAgent newest runs of every
agent survive the sweep. -/
theorem claim3_retention_scan (cfg : RetentionConfig) (runs : List AgentRun)
    (now : Int) (deleteFails : AgentRun → Bool) (hnd : runs.Nodup) :
    (∀ r ∈ (doScan cfg runs now deleteFails).deletedRuns,
        isTerminal r.phase = true ∧
        effectiveCompletion r < now - cfg.ttl ∧
        r ∈ (sortNewestFirst (agentGroup runs r.agentKey)).drop
          cfg.preserveMinPerAgent) ∧
    (doScan cfg runs now deleteFails).deletedRuns.length ≤ cfg.maxDeleteBatch ∧
    (∀ r ∈ (doScan cfg runs now deleteFails).attempted,
        deleteFails r = false →
          r ∈ (doScan cfg runs now deleteFails).deletedRuns) ∧
    (∀ k : String,
      ∀ r ∈ (sortNewestFirst (agentGroup runs k)).take cfg.preserveMinPerAgent,
        r ∉ (doScan cfg runs now deleteFails).deletedRuns) := by
  have hdel : ∀ r ∈ (doScan cfg runs now deleteFails).deletedRuns,
      isTerminal r.phase = true ∧ effectiveCompletion r < now - cfg.ttl ∧
      r ∈ (sortNewestFirst (agentGroup runs r.agentKey)).drop
        cfg.preserveMinPerAgent := by
    intro r hr
    simp only [doScan] at hr
    have hr2 := (List.mem_filter.mp hr).1
    have hr3 := List.take_subset _ _ hr2
    rcases List.mem_flatMap.mp hr3 with ⟨k, hk, hmark⟩
    have hmm := markEligible_mem cfg (now - cfg.ttl) _ 0 r hmark
    have hdrop := markEligible_drop cfg (now - cfg.ttl) _ 0 r hmark
    have hg : r ∈ agentGroup runs k := by
      have h := hmm.2.2
      unfold sortNewestFirst at h
      exact List.mem_mergeSort.mp h
    have hkey : r.agentKey = k := agentGroup_key hg
    rw [hkey]
    exact ⟨hmm.1, hmm.2.1, by simpa using hdrop⟩
  refine ⟨hdel, ?_, ?_, ?_⟩
  · simp only [doScan]
    refine le_trans (List.length_filter_le _ _) ?_
    rw [List.length_take]
    exact min_le_left _ _
  · intro r hr hf
    simp only [doScan] at hr ⊢
    exact List.mem_filter.mpr ⟨hr, by simp [hf]⟩
  · intro k r hrtake hrdel
    obtain ⟨hterm, hold, hdrop⟩ := hdel r hrdel
    have hrs : r ∈ sortNewestFirst (agentGroup runs k) :=
      List.take_subset _ _ hrtake
    have hg : r ∈ agentGroup runs k := by
      unfold sortNewestFirst at hrs
      exact List.mem_mergeSort.mp hrs
    have hkey : r.agentKey = k := agentGroup_key hg
    rw [hkey] at hdrop
    have hnd2 : (agentGroup runs k).Nodup := List.Nodup.filter _ hnd
    have hnd3 : (sortNewestFirst (agentGroup runs k)).Nodup := by
      simpa [sortNewestFirst] using
        (List.mergeSort_perm (agentGroup runs k)
          (fun a b => decide (b.creationTime ≤ a.creationTime))).symm.nodup hnd2
    have hnd4 : ((sortNewestFirst (agentGroup runs k)).take cfg.preserveMinPerAgent ++
        (sortNewestFirst (agentGroup runs k)).drop cfg.preserveMinPerAgent).Nodup := by
      rwa [List.take_append_drop]
    rcases List.nodup_append.mp hnd4 with ⟨-, -, hdisj⟩
    exact hdisj hrtake hdrop

/-- Witness for C3: on a three-run history of one agent with one preserved
slot and a 100 ns TTL at time 2000, the theorem's guarantees hold. -/
theorem claim3_witness :
    (∀ r ∈ (doScan retentionWitnessConfig retentionWitnessRuns 2000
        (fun _ => false)).deletedRuns,
        isTerminal r.phase = true ∧
        effectiveCompletion r < 2000 - retentionWitnessConfig.ttl ∧
        r ∈ (sortNewestFirst (agentGroup retentionWitnessRuns r.agentKey)).drop
          retentionWitnessConfig.preserveMinPerAgent) ∧
    (doScan retentionWitnessConfig retentionWitnessRuns 2000
        (fun _ => false)).deletedRuns.length ≤
      retentionWitnessConfig.maxDeleteBatch ∧
    (∀ r ∈ (doScan retentionWitnessConfig retentionWitnessRuns 2000
        (fun _ => false)).attempted,
        false = false →
          r ∈ (doScan retentionWitnessConfig retentionWitnessRuns 2000
            (fun _ => false)).deletedRuns) ∧
    (∀ k : String,
      ∀ r ∈ (sortNewestFirst (agentGroup retentionWitnessRuns k)).take
          retentionWitnessConfig.preserveMinPerAgent,
        r ∉ (doScan retentionWitnessConfig retentionWitnessRuns 2000
          (fun _ => false)).deletedRuns) :=
  claim3_retention_scan retentionWitnessConfig retentionWitnessRuns 2000
    (fun _ => false) (by decide)

/-- C7: WaitForDrain returns 0 immediately on a zero in-flight count; a
zero count observed by the poll ticker ends the wait returning 0 with
nothing cancelled; when the deadline fires with runs still in flight every
registered run context is cancelled and their count is returned; and in
every case the call ends with either a zero return or the whole cancel map
cancelled and cleared. -/
theorem claim7_waitForDrain (n : Nat) (ticks : List Nat) (dc : Nat)
    (cs : List String) :
    (n = 0 → waitForDrain n ticks dc cs = ⟨0, [], cs⟩) ∧
    (n ≠ 0 → 0 ∈ ticks → waitForDrain n ticks dc cs = ⟨0, [], cs⟩) ∧
    (n ≠ 0 → 0 ∉ ticks → dc ≠ 0 → waitForDrain n ticks dc cs = ⟨dc, cs, []⟩) ∧
    ((waitForDrain n ticks dc cs).returned = 0 ∨
      ((waitForDrain n ticks dc cs).cancelledKeys = cs ∧
        (waitForDrain n ticks dc cs).finalCancels = [])) := by
  refine ⟨?_, ?_, ?_, ?_⟩
  · intro h; simp [waitForDrain, h]
  · intro hn hz
    simp only [waitForDrain, if_neg hn]
    exact drainLoop_zero cs dc ticks hz
  · intro hn hz hdc
    simp only [waitForDrain, if_neg hn]
    exact drainLoop_deadline cs dc ticks hz hdc
  · by_cases hn : n = 0
    · left; simp [waitForDrain, hn]
    · simpa only [waitForDrain, if_neg hn] using drainLoop_post cs dc ticks

/-- Witness for C7 at two in-flight runs that never drain before a
deadline observing both still running. -/
theorem claim7_witness :
    ((2 : Nat) = 0 → waitForDrain 2 [2, 1] 2 ["run-a", "run-b"] =
      ⟨0, [], ["run-a", "run-b"]⟩) ∧
    ((2 : Nat) ≠ 0 → 0 ∈ [2, 1] → waitForDrain 2 [2, 1] 2 ["run-a", "run-b"] =
      ⟨0, [], ["run-a", "run-b"]⟩) ∧
    ((2 : Nat) ≠ 0 → 0 ∉ [2, 1] → (2 : Nat) ≠ 0 →
      waitForDrain 2 [2, 1] 2 ["run-a", "run-b"] =
        ⟨2, ["run-a", "run-b"], []⟩) ∧
    ((waitForDrain 2 [2, 1] 2 ["run-a", "run-b"]).returned = 0 ∨
      ((waitForDrain 2 [2, 1] 2 ["run-a", "run-b"]).cancelledKeys =
          ["run-a", "run-b"] ∧
        (waitForDrain 2 [2, 1] 2 ["run-a", "run-b"]).finalCancels = [])) :=
  claim7_waitForDrain 2 [2, 1] 2 ["run-a", "run-b"]

/-- C8: Cleanup attempts every tracked lease and collects each failing
revocation's error, every zeroed key buffer keeps its length and holds only
zero bytes, both tracking lists end empty, and the active lease count after
cleanup is zero regardless of revocation errors. -/
theorem claim8_cleanup (m : CredentialManager) (revoke : String → Option String) :
    (∀ l ∈ m.leases, ∀ e, revoke l = some e →
      ("revoke lease " ++ l ++ ": " ++ e) ∈ (cleanup m revoke).errs) ∧
    (cleanup m revoke).zeroedKeys.length = m.sshKeys.length ∧
    (∀ p ∈ (cleanup m revoke).zeroedKeys.zip m.sshKeys,
      p.1.length = p.2.length ∧ ∀ b ∈ p.1, b = 0) ∧
    (cleanup m revoke).final.leases = [] ∧
    (cleanup m revoke).final.sshKeys = [] ∧
    activeLeaseCount (cleanup m revoke).final = 0 := by
  refine ⟨?_, ?_, ?_, rfl, rfl, rfl⟩
  · intro l hl e he
    simp only [cleanup]
    exact List.mem_filterMap.mpr ⟨l, hl, by simp [he]⟩
  · simp [cleanup]
  · simpa only [cleanup] using zeroed_zip_spec m.sshKeys

/-- Witness for C8 at a manager with two leases, one failing revocation,
and one tracked key buffer. -/
theorem claim8_witness :
    (∀ l ∈ ["lease-1", "lease-2"], ∀ e,
      (fun x => if x = "lease-1" then some "sealed" else none) l = some e →
      ("revoke lease " ++ l ++ ": " ++ e) ∈
        (cleanup ⟨["lease-1", "lease-2"], [[7, 8, 9]]⟩
          (fun x => if x = "lease-1" then some "sealed" else none)).errs) ∧
    (cleanup ⟨["lease-1", "lease-2"], [[7, 8, 9]]⟩
        (fun x => if x = "lease-1" then some "sealed" else none)).zeroedKeys.length =
      ((⟨["lease-1", "lease-2"], [[7, 8, 9]]⟩ : CredentialManager)).sshKeys.length ∧
    (∀ p ∈ (cleanup ⟨["lease-1", "lease-2"], [[7, 8, 9]]⟩
        (fun x => if x = "lease-1" then some "sealed" else none)).zeroedKeys.zip
          ((⟨["lease-1", "lease-2"], [[7, 8, 9]]⟩ : CredentialManager)).sshKeys,
      p.1.length = p.2.length ∧ ∀ b ∈ p.1, b = 0) ∧
    (cleanup ⟨["lease-1", "lease-2"], [[7, 8, 9]]⟩
        (fun x => if x = "lease-1" then some "sealed" else none)).final.leases = [] ∧
    (cleanup ⟨["lease-1", "lease-2"], [[7, 8, 9]]⟩
        (fun x => if x = "lease-1" then some "sealed" else none)).final.sshKeys = [] ∧
    activeLeaseCount (cleanup ⟨["lease-1", "lease-2"], [[7, 8, 9]]⟩
        (fun x => if x = "lease-1" then some "sealed" else none)).final = 0 :=
  claim8_cleanup ⟨["lease-1", "lease-2"], [[7, 8, 9]]⟩
    (fun x => if x = "lease-1" then some "sealed" else none)

/-- C9: when the caller's context is cancelled after any number of polls
that found the record still Pending, RequestApproval returns phase Expired
with the context error and performs no store write at all; and whatever the
event sequence, the only status write the wait ever performs is the Expired
write with decider system on the manager's own timeout. -/
theorem claim9_cancel_returns_expired_without_write (pre rest : List WaitEvent)
    (hpre : ∀ e ∈ pre, e.keepsWaiting = true) :
    requestApprovalLoop (pre ++ WaitEvent.cancelled :: rest) =
      some (⟨.expired, false, "", true⟩, []) ∧
    (∀ (events : List WaitEvent) (res : ApprovalResult) (ws : List StoreWrite),
      requestApprovalLoop events = some (res, ws) →
      ∀ w ∈ ws, w.phase = ApprovalPhase.expired ∧ w.decider = "system") := by
  constructor
  · induction pre with
    | nil => simp [requestApprovalLoop]
    | cons e es ih =>
        have he : e.keepsWaiting = true := hpre e (List.mem_cons_self _ _)
        have hes : ∀ x ∈ es, x.keepsWaiting = true :=
          fun x hx => hpre x (List.mem_cons_of_mem _ hx)
        cases e with
        | observe ph dec =>
            cases ph with
            | pending => simpa [requestApprovalLoop] using ih hes
            | approved => simp [WaitEvent.keepsWaiting] at he
            | denied => simp [WaitEvent.keepsWaiting] at he
            | expired => simp [WaitEvent.keepsWaiting] at he
        | timeout => simp [WaitEvent.keepsWaiting] at he
        | cancelled => simp [WaitEvent.keepsWaiting] at he
  · intro events
    induction events with
    | nil => intro res ws h; simp [requestApprovalLoop] at h
    | cons e es ih =>
        intro res ws h
        cases e with
        | observe ph dec =>
            cases ph with
            | pending =>
                simp only [requestApprovalLoop] at h
                exact ih res ws h
            | approved =>
                simp only [requestApprovalLoop, Option.some.injEq, Prod.mk.injEq] at h
                rcases h with ⟨-, hws⟩
                subst hws
                simp
            | denied =>
                simp only [requestApprovalLoop, Option.some.injEq, Prod.mk.injEq] at h
                rcases h with ⟨-, hws⟩
                subst hws
                simp
            | expired =>
                simp only [requestApprovalLoop] at h
                exact ih res ws h
        | timeout =>
            simp only [requestApprovalLoop, Option.some.injEq, Prod.mk.injEq] at h
            rcases h with ⟨-, hws⟩
            subst hws
            intro w hw
            rcases List.mem_cons.mp hw with h | h
            · subst h; exact ⟨rfl, rfl⟩
            · simp at h
        | cancelled =>
            simp only [requestApprovalLoop, Option.some.injEq, Prod.mk.injEq] at h
            rcases h with ⟨-, hws⟩
            subst hws
            simp

/-- Witness for C9: two Pending polls followed by caller cancellation. -/
theorem claim9_witness :
    requestApprovalLoop
        ([WaitEvent.observe .pending "", WaitEvent.observe .pending ""] ++
          WaitEvent.cancelled :: []) =
      some (⟨.expired, false, "", true⟩, []) ∧
    (∀ (events : List WaitEvent) (res : ApprovalResult) (ws : List StoreWrite),
      requestApprovalLoop events = some (res, ws) →
      ∀ w ∈ ws, w.phase = ApprovalPhase.expired ∧ w.decider = "system") :=
  claim9_cancel_returns_expired_without_write
    [WaitEvent.observe .pending "", WaitEvent.observe .pending ""] []
    (by decide)

/-- C10 counterexample: a POST to /webhook/github whose body read fails is
answered 400 although the path carries a non-empty source, so the 400
response is not reserved for a missing source path segment only. -/
theorem claim10_counterexample :
    (serveHTTP "POST" "/webhook/github" none (fun _ => none)
        (Debouncer.new 0) 5 0).response.status = 400 ∧
    extractSource "/webhook/github" = "github" ∧
    ¬((serveHTTP "POST" "/webhook/github" none (fun _ => none)
        (Debouncer.new 0) 5 0).response.status = 400 ↔
      ("POST" = "POST" ∧ extractSource "/webhook/github" = "")) := by
  refine ⟨rfl, by decide, ?_⟩
  intro h
  exact absurd (h.mp rfl).2 (by decide)

/-- C10 (amended): a POST to /webhook/source with a successfully read body
and a non-empty source that no agent is registered for is answered 202 with
the literal accepted/agents:0 body, emits no trigger and leaves the
debouncer untouched; and across all requests the handler answers 400
exactly for a POST whose path carries no source or whose body read
failed. -/
theorem claim10_webhook_unknown_source (method path body : String)
    (agentMap : String → Option (List AgentName)) (deb : Debouncer)
    (slots : Nat) (now : Int)
    (hm : method = "POST") (hs : extractSource path ≠ "")
    (hmap : agentMap (extractSource path) = none ∨
      agentMap (extractSource path) = some []) :
    (serveHTTP method path (some body) agentMap deb slots now).response =
      ⟨202, "\x7b\"status\":\"accepted\",\"agents\":0\x7d"⟩ ∧
    (serveHTTP method path (some body) agentMap deb slots now).triggers = [] ∧
    (serveHTTP method path (some body) agentMap deb slots now).debouncer = deb ∧
    (∀ (method2 path2 : String) (bodyRead2 : Option String)
        (agentMap2 : String → Option (List AgentName)) (deb2 : Debouncer)
        (slots2 : Nat) (now2 : Int),
      (serveHTTP method2 path2 bodyRead2 agentMap2 deb2 slots2 now2).response.status =
          400 ↔
        (method2 = "POST" ∧ (extractSource path2 = "" ∨ bodyRead2 = none))) := by
  have hmain : serveHTTP method path (some body) agentMap deb slots now =
      ⟨⟨202, "\x7b\"status\":\"accepted\",\"agents\":0\x7d"⟩, [], deb⟩ := by
    rcases hmap with h | h <;> simp [serveHTTP, hm, hs, h]
  refine ⟨by rw [hmain], by rw [hmain], by rw [hmain], ?_⟩
  intro method2 path2 bodyRead2 agentMap2 deb2 slots2 now2
  by_cases hm2 : method2 = "POST"
  · by_cases hs2 : extractSource path2 = ""
    · simp [serveHTTP, hm2, hs2]
    · cases bodyRead2 with
      | none => simp [serveHTTP, hm2, hs2]
      | some b =>
          rcases hcase : agentMap2 (extractSource path2) with - | agents
          · simp [serveHTTP, hm2, hs2, hcase]
          · by_cases hlen : agents.length = 0
            · simp [serveHTTP, hm2, hs2, hcase, hlen]
            · simp [serveHTTP, hm2, hs2, hcase, hlen]
  · simp [serveHTTP, hm2]

/-- Witness for the amended C10: a POST to /webhook/github with a read
body and an empty registration map. -/
theorem claim10_witness :
    (serveHTTP "POST" "/webhook/github" (some "payload") (fun _ => none)
        (Debouncer.new 0) 5 0).response =
      ⟨202, "\x7b\"status\":\"accepted\",\"agents\":0\x7d"⟩ ∧
    (serveHTTP "POST" "/webhook/github" (some "payload") (fun _ => none)
        (Debouncer.new 0) 5 0).triggers = [] ∧
    (serveHTTP "POST" "/webhook/github" (some "payload") (fun _ => none)
        (Debouncer.new 0) 5 0).debouncer = Debouncer.new 0 ∧
    (∀ (method2 path2 : String) (bodyRead2 : Option String)
        (agentMap2 : String → Option (List AgentName)) (deb2 : Debouncer)
        (slots2 : Nat) (now2 : Int),
      (serveHTTP method2 path2 bodyRead2 agentMap2 deb2 slots2 now2).response.status =
          400 ↔
        (method2 = "POST" ∧ (extractSource path2 = "" ∨ bodyRead2 = none))) :=
  claim10_webhook_unknown_source "POST" "/webhook/github" "payload"
    (fun _ => none) (Debouncer.new 0) 5 0 rfl (by decide) (Or.inl rfl)

end Legator
